import Mathlib

/-!
Shallow embedding of the sqlite3pp wrapper layer (src/unnamed/part_000,
src/src/sqlite3pp.h).  The wrapped native engine (sqlite3) is external to
the repository; every native call is modelled by passing its integer
result code (and, for `sqlite3_prepare_v2`, the length of text it
consumed) as an explicit oracle argument.  Wrapper state (handle fields,
batch text, transaction ownership flag) is modelled by explicit state
passing.
-/

namespace Sqlite3pp

/-- Models `enum class Error : int` — a native result code carried as an error. -/
abbrev Error := Nat

/-- Native result code SQLITE_OK. -/
def SQLITE_OK : Nat := 0

/-- Native result code SQLITE_ROW. -/
def SQLITE_ROW : Nat := 100

/-- Native result code SQLITE_DONE. -/
def SQLITE_DONE : Nat := 101

/-- Native result code SQLITE_MISUSE. -/
def SQLITE_MISUSE : Nat := 21

/-- Models `sqlite_call` (part_000 lines 187-192): `None` for SQLITE_OK,
otherwise the code cast to `Error`. -/
def sqlite_call (r : Nat) : Option Error :=
  if r = SQLITE_OK then none else some r

/-- Models `class database` (sqlite3pp.h lines 122-195).  `db_` is the owned
native connection handle (`none` = nullptr); the five std::function
handler members are bundled as one opaque token, since only their
move-transfer matters to the claims. -/
structure Database where
  db_ : Option Nat
  handlers : Nat
  deriving Repr, DecidableEq

/-- Models `database::is_connected` (part_000 lines 182-185): `db_ != nullptr`. -/
def Database.is_connected (d : Database) : Bool :=
  d.db_.isSome

/-- Models `database::database(database&&)` (part_000 lines 152-161): the target
takes `db.db_` and the handlers, then `db.db_ = nullptr`.  Returns
(constructed target, moved-from source). -/
def Database.move_construct (d : Database) : Database × Database :=
  (⟨d.db_, d.handlers⟩, ⟨none, d.handlers⟩)

/-- Models `database::operator=(database&&)` (part_000 lines 163-175): the target
takes `db.db_` and the handlers, then `db.db_ = nullptr`.  Returns
(assigned target, moved-from source). -/
def Database.move_assign (t s : Database) : Database × Database :=
  ({ t with db_ := s.db_, handlers := s.handlers }, { s with db_ := none })

/-- Models `database::disconnect` (part_000 lines 206-221): nothing held — return
`None`; otherwise close, null the handle only on success, return the
close result.  `closeRc` is the native `sqlite3_close` result. -/
def Database.disconnect (d : Database) (closeRc : Nat) : Database × Option Error :=
  match d.db_ with
  | none => (d, none)
  | some _ =>
    match sqlite_call closeRc with
    | none => ({ d with db_ := none }, none)
    | some e => (d, some e)

/-- Models `database::execute` (part_000 lines 329-332): forwards the
`sqlite3_exec` result `rc` through `sqlite_call`. -/
def Database.execute (rc : Nat) : Option Error :=
  sqlite_call rc

/-- Models `database::set_busy_timeout` (part_000 lines 351-354): forwards the
`sqlite3_busy_timeout` result through `sqlite_call`. -/
def Database.set_busy_timeout (rc : Nat) : Option Error :=
  sqlite_call rc

/-- Models `database::enable_foreign_keys` (part_000 lines 299-302): forwards the
`sqlite3_db_config` result through `sqlite_call`. -/
def Database.enable_foreign_keys (rc : Nat) : Option Error :=
  sqlite_call rc

/-- Models `class statement` (sqlite3pp.h lines 206-283).  `stmt_` is the owned
compiled-statement handle (`none` = nullptr). -/
structure Statement where
  stmt_ : Option Nat
  deriving Repr, DecidableEq

/-- Models `statement::reset` (part_000 lines 491-494): forwards the
`sqlite3_reset` result through `sqlite_call`; the handle is untouched. -/
def Statement.reset (s : Statement) (rc : Nat) : Option Error :=
  sqlite_call rc

/-- Models `statement::clear_bindings` (part_000 lines 496-499): forwards the
`sqlite3_clear_bindings` result through `sqlite_call`. -/
def Statement.clear_bindings (s : Statement) (rc : Nat) : Option Error :=
  sqlite_call rc

/-- Models `statement::bind(uint, int)` (part_000 lines 511-514): forwards the
`sqlite3_bind_int` result through `sqlite_call`. -/
def Statement.bind (s : Statement) (idx : Nat) (rc : Nat) : Option Error :=
  sqlite_call rc

/-- Models `statement::finish` (part_000 lines 441-454): null handle — return
`None` unchanged; otherwise reset (result dropped), finalize, null the
handle unconditionally, return the finalize result translated by
`sqlite_call`.  `finalizeRc` is the native `sqlite3_finalize` result. -/
def Statement.finish (s : Statement) (finalizeRc : Nat) : Statement × Option Error :=
  match s.stmt_ with
  | none => (s, none)
  | some _ => (⟨none⟩, sqlite_call finalizeRc)

/-- Models `statement::~statement` (part_000 lines 385-392): calls `finish()`
(the error is only asserted on, not propagated further). -/
def Statement.destructor (s : Statement) (finalizeRc : Nat) : Statement × Option Error :=
  s.finish finalizeRc

/-- Models `statement::step` (part_000 lines 456-464): SQLITE_DONE — `ok false`,
SQLITE_ROW — `ok true`, anything else — that code as an error. -/
def Statement.step (rc : Nat) : Except Error Bool :=
  if rc = SQLITE_DONE then .ok false
  else if rc = SQLITE_ROW then .ok true
  else .error rc

/-- Models `statement::exec` evaluated on its oracle inputs: the final result and
whether a `sqlite3_step` was performed. -/
structure ExecOutcome where
  result : Option Error
  stepPerformed : Bool
  deriving Repr, DecidableEq

/-- Models `statement::exec` (part_000 lines 466-481): no handle — SQLITE_MISUSE,
no step; reset failure — that error, no step; otherwise one step, `None`
iff the step code is SQLITE_DONE, SQLITE_ROW or SQLITE_OK, else the step
code as an error. -/
def Statement.exec (s : Statement) (resetRc stepRc : Nat) : ExecOutcome :=
  match s.stmt_ with
  | none => ⟨some SQLITE_MISUSE, false⟩
  | some _ =>
    match s.reset resetRc with
    | some e => ⟨some e, false⟩
    | none =>
      if stepRc = SQLITE_DONE ∨ stepRc = SQLITE_ROW ∨ stepRc = SQLITE_OK then
        ⟨none, true⟩
      else
        ⟨some stepRc, true⟩

/-- Models `selecter::exec` (part_000 lines 739-746): no handle — SQLITE_MISUSE;
otherwise just `reset()`.  The handle field is never written, so the
(unchanged) statement is returned alongside the result. -/
def Selecter.exec (s : Statement) (resetRc : Nat) : Statement × Option Error :=
  match s.stmt_ with
  | none => (s, some SQLITE_MISUSE)
  | some _ => (s, s.reset resetRc)

/-- Models `enum copy_semantic : uint8_t { copy, nocopy }` (sqlite3pp.h line 204). -/
inductive CopySemantic where
  | copy
  | nocopy
  deriving Repr, DecidableEq

/-- The implicit integer conversion applied when a `copy_semantic` value is
used as a condition: `copy` is 0 (falsy), `nocopy` is 1 (truthy). -/
def CopySemantic.toBool : CopySemantic → Bool
  | .copy => false
  | .nocopy => true

/-- Models `bmcl::StringView::ltrim`: drop leading whitespace. -/
def ltrim (s : List Char) : List Char :=
  s.dropWhile Char.isWhitespace

/-- The native outcomes one `batch::execute_next` call can observe:
the `sqlite3_prepare_v2` result and the number of characters of the
(trimmed) text it consumed on success (its tail pointer), the
`sqlite3_step` result, and the `sqlite3_finalize` result. -/
structure NativeCall where
  prepareRc : Nat
  consumed : Nat
  stepRc : Nat
  finishRc : Nat
  deriving Repr, DecidableEq

/-- Models `class batch` (sqlite3pp.h lines 285-300): optional owned copy
`data_`, the remaining text `state_` and the original text `orig_`. -/
structure Batch where
  data_ : Option (List Char)
  state_ : List Char
  orig_ : List Char
  deriving Repr, DecidableEq

/-- Models `batch::prepare` (part_000 lines 615-628): on a non-empty text with a
truthy `fcopy`, store an owned copy and point `orig_` at it, else point
`orig_` at the caller's text; either way `state_ = orig_` and the result
is `None`. -/
def Batch.prepare (b : Batch) (stmt : List Char) (fcopy : CopySemantic) : Batch × Option Error :=
  if !stmt.isEmpty && fcopy.toBool then
    (⟨some stmt, stmt, stmt⟩, none)
  else
    (⟨b.data_, stmt, stmt⟩, none)

/-- Models `batch::reset` (part_000 lines 610-613): `state_ = orig_`. -/
def Batch.reset (b : Batch) : Batch :=
  { b with state_ := b.orig_ }

/-- Models `batch::state` (part_000 lines 674-677). -/
def Batch.state (b : Batch) : List Char :=
  b.state_

/-- The text transition of `batch::execute_next` (part_000 lines 630-659):
trim leading whitespace; empty — `ok false`; prepare the first statement
(on failure return that error, text stays trimmed); step it (DONE/ROW are
success, otherwise return the step code, text stays trimmed); finish it
(on failure return that error, text stays trimmed); on success the text
becomes the prepare tail and the result is whether it is non-empty. -/
def executeNextText (st : List Char) (c : NativeCall) : List Char × Except Error Bool :=
  let t := ltrim st
  if t.isEmpty then
    (t, .ok false)
  else
    match sqlite_call c.prepareRc with
    | some e => (t, .error e)
    | none =>
      match Statement.step c.stepRc with
      | .error e => (t, .error e)
      | .ok _ =>
        match sqlite_call c.finishRc with
        | some e => (t, .error e)
        | none =>
          let t2 := t.drop c.consumed
          (t2, .ok (!t2.isEmpty))

/-- Models `batch::execute_next` as a transition on the batch state: only
`state_` changes. -/
def Batch.execute_next (b : Batch) (c : NativeCall) : Batch × Except Error Bool :=
  let p := executeNextText b.state_ c
  ({ b with state_ := p.1 }, p.2)

/-- A sequence of `execute_next` calls, keeping only the batch state. -/
def Batch.run_nexts (b : Batch) (cs : List NativeCall) : Batch :=
  cs.foldl (fun x c => (x.execute_next c).1) b

/-- Models `batch::execute_all` (part_000 lines 661-672): call `execute_next`
until it returns false (overall `None`) or an error (returned as is).
The list supplies one native outcome per iteration; exhausting it before
the loop stops yields `none` (out of modelled native outcomes). -/
def Batch.execute_all (b : Batch) : List NativeCall → Option (Batch × Option Error)
  | [] => none
  | c :: cs =>
    match b.execute_next c with
    | (b2, .error e) => some (b2, some e)
    | (b2, .ok false) => some (b2, none)
    | (b2, .ok true) => b2.execute_all cs

/-- Length of the first semicolon-terminated statement of a text (through
the first `;`, or the whole text when there is none): the tail behaviour
of `sqlite3_prepare_v2` on a sequence of semicolon-separated statements. -/
def firstStmtLen (t : List Char) : Nat :=
  match t.findIdx? (· == ';') with
  | some i => i + 1
  | none => t.length

/-- The native outcome of a successful `execute_next` call on a
semicolon-separated batch text: prepare succeeds consuming exactly the
first statement of the trimmed text. -/
def semiCall (st : List Char) (stepRc finishRc : Nat) : NativeCall :=
  ⟨SQLITE_OK, firstStmtLen (ltrim st), stepRc, finishRc⟩

/-- Models `selecter::column_index` loop body (part_000 lines 784-795): scan
indices upward, returning the first whose column name equals `name`.
`names` is the native column-name table from index `i` on. -/
def Selecter.column_index_aux (name : String) (names : List String) (i : Nat) : Option Nat :=
  match names with
  | [] => none
  | n :: rest => if name = n then some i else Selecter.column_index_aux name rest (i + 1)

/-- Models `selecter::column_index` (part_000 lines 784-795): the scan starting
at index 0.  `names` is the full native column-name table, so
`column_count()` is `names.length` and `column_name(i)` is `names[i]`. -/
def Selecter.column_index (names : List String) (name : String) : Option Nat :=
  Selecter.column_index_aux name names 0

/-- A command the transaction wrapper can issue on its database. -/
inductive TxCmd where
  | beginCmd
  | beginImmediateCmd
  | commitCmd
  | rollbackCmd
  deriving Repr, DecidableEq

/-- Whether a command terminates the transaction (COMMIT or ROLLBACK). -/
def TxCmd.isTerminating : TxCmd → Bool
  | .commitCmd => true
  | .rollbackCmd => true
  | _ => false

/-- Models `class transaction` (sqlite3pp.h lines 392-404): `db_` records whether
the database pointer is still held, `fcommit_` the destructor policy. -/
structure Transaction where
  db_ : Bool
  fcommit_ : Bool
  deriving Repr, DecidableEq

/-- Models `transaction::transaction` (part_000 lines 816-824): issue BEGIN (or
BEGIN IMMEDIATE) and drop the pointer when it fails.  Returns the
constructed transaction and the commands issued. -/
def Transaction.ctor (fcommit immediate : Bool) (beginRc : Nat) : Transaction × List TxCmd :=
  let cmds := [if immediate then TxCmd.beginImmediateCmd else TxCmd.beginCmd]
  if (sqlite_call beginRc).isSome then (⟨false, fcommit⟩, cmds) else (⟨true, fcommit⟩, cmds)

/-- Models `transaction::commit` (part_000 lines 838-845): null pointer —
SQLITE_MISUSE with no command; otherwise drop the pointer first, then
issue COMMIT and return its result. -/
def Transaction.commit (t : Transaction) (rc : Nat) : Transaction × List TxCmd × Option Error :=
  if t.db_ then ({ t with db_ := false }, [TxCmd.commitCmd], sqlite_call rc)
  else (t, [], some SQLITE_MISUSE)

/-- Models `transaction::rollback` (part_000 lines 847-854): null pointer —
SQLITE_MISUSE with no command; otherwise drop the pointer first, then
issue ROLLBACK and return its result. -/
def Transaction.rollback (t : Transaction) (rc : Nat) : Transaction × List TxCmd × Option Error :=
  if t.db_ then ({ t with db_ := false }, [TxCmd.rollbackCmd], sqlite_call rc)
  else (t, [], some SQLITE_MISUSE)

/-- Models `transaction::~transaction` (part_000 lines 826-836): nothing when the
pointer is gone, otherwise one COMMIT or ROLLBACK per `fcommit_`. -/
def Transaction.dtor (t : Transaction) : List TxCmd :=
  if t.db_ then [if t.fcommit_ then TxCmd.commitCmd else TxCmd.rollbackCmd] else []

/-- A user call on a live transaction object, with its native result. -/
inductive TxOp where
  | commitOp (rc : Nat)
  | rollbackOp (rc : Nat)
  deriving Repr, DecidableEq

/-- Apply one user call. -/
def Transaction.applyOp (t : Transaction) (op : TxOp) : Transaction × List TxCmd × Option Error :=
  match op with
  | .commitOp rc => t.commit rc
  | .rollbackOp rc => t.rollback rc

/-- Run a sequence of user calls, accumulating the commands issued. -/
def Transaction.runOps (t : Transaction) : List TxOp → Transaction × List TxCmd
  | [] => (t, [])
  | op :: ops =>
    let p := t.applyOp op
    let q := p.1.runOps ops
    (q.1, p.2.1 ++ q.2)

/-- Termination budget of a transaction: 1 while the database pointer is
held, 0 once it is gone. -/
def Transaction.pot (t : Transaction) : Nat :=
  if t.db_ then 1 else 0

/-- Every command a transaction issues over its whole lifetime:
construction, any sequence of commit/rollback calls, then destruction. -/
def Transaction.lifetimeCmds (fcommit immediate : Bool) (beginRc : Nat)
    (ops : List TxOp) : List TxCmd :=
  let c := Transaction.ctor fcommit immediate beginRc
  let r := c.1.runOps ops
  c.2 ++ r.2 ++ r.1.dtor

end Sqlite3pp

namespace Sqlite3pp

/-- C1: a move construction or move assignment from a database `d` leaves
`d` disconnected (null handle) while the target holds exactly the handle
`d` held before; the two wrappers never hold the same handle afterwards. -/
theorem database_move_unique_ownership (d t s : Database) :
    (d.move_construct.1.db_ = d.db_ ∧
     d.move_construct.2.db_ = none ∧
     d.move_construct.2.is_connected = false) ∧
    ((Database.move_assign t s).1.db_ = s.db_ ∧
     (Database.move_assign t s).2.db_ = none ∧
     (Database.move_assign t s).2.is_connected = false) ∧
    (∀ h : Nat, ¬(d.move_construct.1.db_ = some h ∧ d.move_construct.2.db_ = some h)) ∧
    (∀ h : Nat, ¬((Database.move_assign t s).1.db_ = some h ∧
                  (Database.move_assign t s).2.db_ = some h)) := by
  refine ⟨⟨rfl, rfl, rfl⟩, ⟨rfl, rfl, rfl⟩, ?_, ?_⟩ <;>
    intro h hc <;> simp [Database.move_construct, Database.move_assign] at hc

/-- C1 witness: evaluated at a concrete database holding handle 7. -/
theorem database_move_unique_ownership_eval :
    (Database.move_construct ⟨some 7, 0⟩).1.db_ = some 7 ∧
    (Database.move_construct ⟨some 7, 0⟩).2.db_ = none ∧
    ¬((Database.move_assign ⟨some 3, 0⟩ ⟨some 7, 0⟩).1.db_ = some 7 ∧
      (Database.move_assign ⟨some 3, 0⟩ ⟨some 7, 0⟩).2.db_ = some 7) :=
  ⟨(database_move_unique_ownership ⟨some 7, 0⟩ ⟨some 3, 0⟩ ⟨some 7, 0⟩).1.1,
   (database_move_unique_ownership ⟨some 7, 0⟩ ⟨some 3, 0⟩ ⟨some 7, 0⟩).1.2.1,
   (database_move_unique_ownership ⟨some 7, 0⟩ ⟨some 3, 0⟩ ⟨some 7, 0⟩).2.2.2 7⟩

/-- C6: `sqlite_call` returns `None` exactly on SQLITE_OK and otherwise
the code itself as an error; the forwarding wrappers built on it
(`execute`, `bind`, `reset`, `clear_bindings`, `set_busy_timeout`,
`enable_foreign_keys`) therefore succeed iff the native call returned
SQLITE_OK. -/
theorem sqlite_call_ok_iff (s : Statement) (idx rc : Nat) :
    (sqlite_call rc = none ↔ rc = SQLITE_OK) ∧
    (rc ≠ SQLITE_OK → sqlite_call rc = some rc) ∧
    ((Database.execute rc).isNone ↔ rc = SQLITE_OK) ∧
    ((s.bind idx rc).isNone ↔ rc = SQLITE_OK) ∧
    ((s.reset rc).isNone ↔ rc = SQLITE_OK) ∧
    ((s.clear_bindings rc).isNone ↔ rc = SQLITE_OK) ∧
    ((Database.set_busy_timeout rc).isNone ↔ rc = SQLITE_OK) ∧
    ((Database.enable_foreign_keys rc).isNone ↔ rc = SQLITE_OK) := by
  by_cases h : rc = SQLITE_OK <;>
    simp [sqlite_call, Database.execute, Statement.bind, Statement.reset,
      Statement.clear_bindings, Database.set_busy_timeout,
      Database.enable_foreign_keys, h]

/-- C6 witness: evaluated at SQLITE_OK and at a failing code 5. -/
theorem sqlite_call_ok_iff_eval :
    sqlite_call 0 = none ∧ sqlite_call 5 = some 5 :=
  ⟨(sqlite_call_ok_iff ⟨some 1⟩ 1 0).1.mpr rfl,
   (sqlite_call_ok_iff ⟨some 1⟩ 1 5).2.1 (by decide)⟩

/-- C7: `disconnect` is a no-op returning `None` on a null handle; on a
held handle it nulls the handle exactly when the native close succeeds,
and on close failure returns the error with the handle unchanged (so the
database stays connected). -/
theorem database_disconnect_spec (d : Database) (rc : Nat) :
    (d.db_ = none → d.disconnect rc = (d, none)) ∧
    (d.db_.isSome → rc = SQLITE_OK →
      d.disconnect rc = ({ d with db_ := none }, none) ∧
      (d.disconnect rc).1.is_connected = false) ∧
    (d.db_.isSome → rc ≠ SQLITE_OK →
      d.disconnect rc = (d, some rc)) := by
  refine ⟨fun h => ?_, fun h hrc => ?_, fun h hrc => ?_⟩
  · simp [Database.disconnect, h]
  · obtain ⟨x, hx⟩ := Option.isSome_iff_exists.mp h
    simp [Database.disconnect, hx, sqlite_call, hrc, Database.is_connected]
  · obtain ⟨x, hx⟩ := Option.isSome_iff_exists.mp h
    simp [Database.disconnect, hx, sqlite_call, hrc]

/-- C7 witness: evaluated at a database holding handle 7, for a successful
and for a failing close. -/
theorem database_disconnect_spec_eval :
    Database.disconnect ⟨some 7, 0⟩ 0 = (⟨none, 0⟩, none) ∧
    Database.disconnect ⟨some 7, 0⟩ 5 = (⟨some 7, 0⟩, some 5) :=
  ⟨((database_disconnect_spec ⟨some 7, 0⟩ 0).2.1 (by decide) rfl).1,
   (database_disconnect_spec ⟨some 7, 0⟩ 5).2.2 (by decide) (by decide)⟩

/-- C3: `statement::exec` returns SQLITE_MISUSE with no step when there is
no prepared handle; a failing reset returns the reset error with no step;
otherwise exactly one step is performed and the result is `None` iff the
step code is SQLITE_DONE, SQLITE_ROW or SQLITE_OK, else that code as an
error. -/
theorem statement_exec_spec (s : Statement) (resetRc stepRc : Nat) :
    (s.stmt_ = none → s.exec resetRc stepRc = ⟨some SQLITE_MISUSE, false⟩) ∧
    (s.stmt_.isSome → resetRc ≠ SQLITE_OK →
      s.exec resetRc stepRc = ⟨some resetRc, false⟩) ∧
    (s.stmt_.isSome → resetRc = SQLITE_OK →
      (s.exec resetRc stepRc).stepPerformed = true ∧
      ((s.exec resetRc stepRc).result = none ↔
        (stepRc = SQLITE_DONE ∨ stepRc = SQLITE_ROW ∨ stepRc = SQLITE_OK)) ∧
      (¬(stepRc = SQLITE_DONE ∨ stepRc = SQLITE_ROW ∨ stepRc = SQLITE_OK) →
        (s.exec resetRc stepRc).result = some stepRc)) := by
  refine ⟨fun h => ?_, fun h hr => ?_, fun h hr => ?_⟩
  · simp [Statement.exec, h]
  · obtain ⟨x, hx⟩ := Option.isSome_iff_exists.mp h
    simp [Statement.exec, hx, Statement.reset, sqlite_call, hr]
  · obtain ⟨x, hx⟩ := Option.isSome_iff_exists.mp h
    by_cases hs : stepRc = SQLITE_DONE ∨ stepRc = SQLITE_ROW ∨ stepRc = SQLITE_OK <;>
      simp [Statement.exec, hx, Statement.reset, sqlite_call, hr, hs]

/-- C3 witness: a missing handle, a successful reset with a DONE step, and
a failing reset. -/
theorem statement_exec_spec_eval :
    Statement.exec ⟨none⟩ 0 101 = ⟨some SQLITE_MISUSE, false⟩ ∧
    (Statement.exec ⟨some 1⟩ 0 101).result = none ∧
    Statement.exec ⟨some 1⟩ 5 101 = ⟨some 5, false⟩ :=
  ⟨(statement_exec_spec ⟨none⟩ 0 101).1 rfl,
   ((statement_exec_spec ⟨some 1⟩ 0 101).2.2 (by decide) rfl).2.1.mpr (Or.inl rfl),
   (statement_exec_spec ⟨some 1⟩ 5 101).2.1 (by decide) (by decide)⟩

/-- C4: the statement destructor invokes `finish()`; `finish()` on a null
handle returns `None` and changes nothing, on a held handle it finalizes
and nulls the handle; after any `finish()` call the handle is null and a
second call returns `None` leaving it null. -/
theorem statement_finish_idempotent (s : Statement) (rc rc2 : Nat) :
    (s.destructor rc = s.finish rc) ∧
    (s.stmt_ = none → s.finish rc = (s, none)) ∧
    (∀ h, s.stmt_ = some h → s.finish rc = (⟨none⟩, sqlite_call rc)) ∧
    ((s.finish rc).1.stmt_ = none) ∧
    ((s.finish rc).1.finish rc2 = ((s.finish rc).1, none)) := by
  refine ⟨rfl, fun h => ?_, fun x hx => ?_, ?_, ?_⟩
  · simp [Statement.finish, h]
  · simp [Statement.finish, hx]
  · cases h : s.stmt_ <;> simp [Statement.finish, h]
  · cases h : s.stmt_ <;> simp [Statement.finish, h]

/-- C4 witness: finish on a held handle with a successful finalize, then a
second finish. -/
theorem statement_finish_idempotent_eval :
    Statement.finish ⟨some 3⟩ 0 = (⟨none⟩, none) ∧
    (Statement.finish ⟨some 3⟩ 0).1.finish 0 = ((Statement.finish ⟨some 3⟩ 0).1, none) :=
  ⟨(statement_finish_idempotent ⟨some 3⟩ 0 0).2.2.1 3 rfl,
   (statement_finish_idempotent ⟨some 3⟩ 0 0).2.2.2.2⟩

/-- C5: on a prepared statement, `selecter::exec` returns exactly the
reset result and leaves the statement state — in particular the compiled
handle — unchanged, so the statement stays prepared. -/
theorem selecter_exec_preserves_statement (s : Statement) (rc h : Nat) :
    s.stmt_ = some h →
      Selecter.exec s rc = (s, sqlite_call rc) ∧
      (Selecter.exec s rc).1 = s ∧
      (Selecter.exec s rc).1.stmt_ = some h := by
  intro hs
  refine ⟨?_, ?_, ?_⟩ <;> simp [Selecter.exec, hs, Statement.reset]

/-- C5 witness: a prepared statement with handle 2 and a successful
reset. -/
theorem selecter_exec_preserves_statement_eval :
    Selecter.exec ⟨some 2⟩ 0 = (⟨some 2⟩, none) ∧
    (Selecter.exec ⟨some 2⟩ 0).1.stmt_ = some 2 :=
  ⟨by
    have hc := (selecter_exec_preserves_statement ⟨some 2⟩ 0 2 rfl).1
    simpa [sqlite_call, SQLITE_OK] using hc,
   (selecter_exec_preserves_statement ⟨some 2⟩ 0 2 rfl).2.2⟩

/-- A sequence of `execute_next` calls never touches `orig_`. -/
theorem Batch.run_nexts_orig (cs : List NativeCall) :
    ∀ b : Batch, (b.run_nexts cs).orig_ = b.orig_ := by
  induction cs with
  | nil => intro b; rfl
  | cons c cs ih =>
    intro b
    have hx : b.run_nexts (c :: cs) = ((b.execute_next c).1).run_nexts cs := rfl
    rw [hx, ih]
    rfl

/-- C8: `batch::prepare` always returns `None` and sets both `orig_` and
`state()` to the given text; after any sequence of `execute_next` calls,
`reset()` restores `state()` to the full original text. -/
theorem batch_prepare_reset_roundtrip (b : Batch) (stmt : List Char)
    (fcopy : CopySemantic) (cs : List NativeCall) :
    (b.prepare stmt fcopy).2 = none ∧
    (b.prepare stmt fcopy).1.orig_ = stmt ∧
    (b.prepare stmt fcopy).1.state = stmt ∧
    (((b.prepare stmt fcopy).1.run_nexts cs).reset).state = stmt := by
  have horig : (b.prepare stmt fcopy).1.orig_ = stmt := by
    by_cases h : (!stmt.isEmpty && fcopy.toBool) = true <;>
      simp [Batch.prepare, h]
  refine ⟨?_, horig, ?_, ?_⟩
  · by_cases h : (!stmt.isEmpty && fcopy.toBool) = true <;>
      simp [Batch.prepare, h]
  · by_cases h : (!stmt.isEmpty && fcopy.toBool) = true <;>
      simp [Batch.prepare, Batch.state, h]
  · rw [Batch.state, Batch.reset, Batch.run_nexts_orig, horig]

/-- Index scanning of `column_index` agrees with `List.findIdx?` on the
predicate comparing against the sought name. -/
theorem Selecter.column_index_aux_eq_findIdx (name : String) (names : List String) :
    ∀ i : Nat, Selecter.column_index_aux name names i =
      names.findIdx? (fun n => name == n) i := by
  induction names with
  | nil => intro i; rfl
  | cons n rest ih =>
    intro i
    by_cases h : name = n <;>
      simp [Selecter.column_index_aux, List.findIdx?_cons, h, ih]

/-- C10: `column_index(name)` returns `some i` exactly when `i` is below
`column_count()`, `column_name(i)` equals `name`, and no smaller index
has that name; it returns `none` exactly when no index below
`column_count()` has that name. -/
theorem selecter_column_index_spec (names : List String) (name : String) :
    (∀ i, Selecter.column_index names name = some i ↔
      (names[i]? = some name ∧ ∀ j, j < i → names[j]? ≠ some name)) ∧
    (Selecter.column_index names name = none ↔
      ∀ j, j < names.length → names[j]? ≠ some name) := by
  have hfind : Selecter.column_index names name =
      names.findIdx? (fun n => name == n) :=
    Selecter.column_index_aux_eq_findIdx name names 0
  constructor
  · intro i
    rw [hfind, List.findIdx?_eq_some_iff_getElem]
    constructor
    · rintro ⟨hi, hp, hmin⟩
      refine ⟨?_, ?_⟩
      · rw [List.getElem?_eq_getElem hi]
        exact congrArg some (beq_iff_eq.mp hp).symm
      · intro j hj hc
        have hjl : j < names.length := Nat.lt_trans hj hi
        rw [List.getElem?_eq_getElem hjl] at hc
        have hje : names[j] = name := Option.some.inj hc
        have hb : ¬name = names[j] := by simpa using hmin j hj
        exact hb hje.symm
    · rintro ⟨hsome, hmin⟩
      have hi : i < names.length := by
        by_contra hk
        rw [List.getElem?_eq_none (Nat.le_of_not_lt hk)] at hsome
        exact Option.noConfusion hsome
      rw [List.getElem?_eq_getElem hi] at hsome
      refine ⟨hi, ?_, ?_⟩
      · exact beq_iff_eq.mpr (Option.some.inj hsome).symm
      · intro j hj
        have hjl : j < names.length := Nat.lt_trans hj hi
        have := hmin j hj
        rw [List.getElem?_eq_getElem hjl] at this
        simp only [ne_eq, Option.some.injEq] at this
        simpa using fun hb => this (beq_iff_eq.mp hb).symm
  · rw [hfind, List.findIdx?_eq_none_iff]
    constructor
    · intro hall j hj hc
      rw [List.getElem?_eq_getElem hj] at hc
      have hje : names[j] = name := Option.some.inj hc
      have hmem : names[j] ∈ names := List.mem_iff_getElem.mpr ⟨j, hj, rfl⟩
      have hb := hall _ hmem
      rw [hje] at hb
      simp at hb
    · intro hall x hx
      obtain ⟨j, hj, hxe⟩ := List.mem_iff_getElem.mp hx
      have := hall j hj
      rw [List.getElem?_eq_getElem hj] at this
      simp only [ne_eq, Option.some.injEq] at this
      subst hxe
      exact beq_eq_false_iff_ne.mpr fun he => this he.symm

/-- C10 witness: lookup in a concrete column table with a duplicate name
and a miss. -/
theorem selecter_column_index_spec_eval :
    Selecter.column_index ["a", "b", "b"] "b" = some 1 ∧
    Selecter.column_index ["a", "b", "b"] "z" = none :=
  ⟨((selecter_column_index_spec ["a", "b", "b"] "b").1 1).mpr
    ⟨by decide, by decide⟩,
   (selecter_column_index_spec ["a", "b", "b"] "z").2.mpr (by decide)⟩

/-- Running any sequence of commit/rollback calls issues at most as many
terminating commands as the budget it uses up. -/
theorem Transaction.runOps_term_le (ops : List TxOp) :
    ∀ t : Transaction,
      (t.runOps ops).2.countP (fun c => TxCmd.isTerminating c) + (t.runOps ops).1.pot ≤ t.pot := by
  induction ops with
  | nil =>
    intro t
    simp [Transaction.runOps]
  | cons op ops ih =>
    intro t
    have hsplit : t.runOps (op :: ops) =
        (((t.applyOp op).1.runOps ops).1,
          (t.applyOp op).2.1 ++ ((t.applyOp op).1.runOps ops).2) := rfl
    rw [hsplit]
    simp only [List.countP_append]
    by_cases h : t.db_ = true
    · have hcmds : (t.applyOp op).2.1.countP (fun c => TxCmd.isTerminating c) = 1 := by
        cases op <;> simp [Transaction.applyOp, Transaction.commit, Transaction.rollback,
          h, TxCmd.isTerminating, List.countP_cons]
      have hdrop : (t.applyOp op).1 = ⟨false, t.fcommit_⟩ := by
        cases op <;> simp [Transaction.applyOp, Transaction.commit, Transaction.rollback, h]
      have hrec := ih (t.applyOp op).1
      rw [hdrop] at hrec ⊢
      simp only [Transaction.pot, h, if_true] at hrec ⊢
      simp only [Bool.false_eq_true, if_false] at hrec
      omega
    · have hb : t.db_ = false := by
        cases hdb : t.db_
        · rfl
        · exact absurd hdb h
      have hcmds : (t.applyOp op).2.1 = [] := by
        cases op <;> simp [Transaction.applyOp, Transaction.commit, Transaction.rollback, hb]
      have hsame : (t.applyOp op).1 = t := by
        cases op <;> simp [Transaction.applyOp, Transaction.commit, Transaction.rollback, hb]
      rw [hcmds, hsame]
      simpa using ih t

/-- C9: a finished transaction (one that has already committed or rolled
back, or whose initial BEGIN failed) answers SQLITE_MISUSE to commit and
rollback without issuing a command and its destructor issues nothing;
commit and rollback always leave the transaction finished; over a whole
lifetime (construction, any call sequence, destruction) at most one
COMMIT or ROLLBACK is issued. -/
theorem transaction_at_most_one_terminating (t : Transaction) (rc : Nat)
    (fcommit immediate : Bool) (beginRc : Nat) (ops : List TxOp) :
    (t.db_ = false →
      t.commit rc = (t, [], some SQLITE_MISUSE) ∧
      t.rollback rc = (t, [], some SQLITE_MISUSE) ∧
      t.dtor = []) ∧
    ((t.commit rc).1.db_ = false ∧ (t.rollback rc).1.db_ = false) ∧
    (beginRc ≠ SQLITE_OK → (Transaction.ctor fcommit immediate beginRc).1.db_ = false) ∧
    ((Transaction.lifetimeCmds fcommit immediate beginRc ops).countP
        (fun c => TxCmd.isTerminating c) ≤ 1) := by
  refine ⟨fun h => ?_, ⟨?_, ?_⟩, fun h => ?_, ?_⟩
  · exact ⟨by simp [Transaction.commit, h], by simp [Transaction.rollback, h],
      by simp [Transaction.dtor, h]⟩
  · by_cases h : t.db_ = true <;> simp [Transaction.commit, h]
  · by_cases h : t.db_ = true <;> simp [Transaction.rollback, h]
  · simp [Transaction.ctor, sqlite_call, h]
  · have hctor : (Transaction.ctor fcommit immediate beginRc).2.countP
        (fun c => TxCmd.isTerminating c) = 0 := by
      by_cases hb : (sqlite_call beginRc).isSome <;>
        cases immediate <;>
          simp [Transaction.ctor, hb, TxCmd.isTerminating, List.countP_cons]
    have hdtor : ∀ u : Transaction,
        u.dtor.countP (fun c => TxCmd.isTerminating c) = u.pot := by
      intro u
      by_cases hu : u.db_ = true <;>
        cases hf : u.fcommit_ <;>
          simp [Transaction.dtor, Transaction.pot, hu, hf, TxCmd.isTerminating,
            List.countP_cons]
    have hpot : (Transaction.ctor fcommit immediate beginRc).1.pot ≤ 1 := by
      by_cases hb : (sqlite_call beginRc).isSome <;>
        simp [Transaction.ctor, Transaction.pot, hb]
    have hrun := Transaction.runOps_term_le ops (Transaction.ctor fcommit immediate beginRc).1
    rw [Transaction.lifetimeCmds]
    simp only [List.countP_append]
    rw [hctor, hdtor]
    omega

/-- C9 witness: a lifetime with an explicit commit followed by redundant
calls, evaluated concretely. -/
theorem transaction_at_most_one_terminating_eval :
    Transaction.commit ⟨false, true⟩ 0 = (⟨false, true⟩, [], some SQLITE_MISUSE) ∧
    Transaction.dtor ⟨false, true⟩ = [] ∧
    (Transaction.lifetimeCmds true false 0
        [TxOp.commitOp 0, TxOp.rollbackOp 0]).countP
      (fun c => TxCmd.isTerminating c) ≤ 1 :=
  ⟨((transaction_at_most_one_terminating ⟨false, true⟩ 0 true false 0
      [TxOp.commitOp 0, TxOp.rollbackOp 0]).1 rfl).1,
   ((transaction_at_most_one_terminating ⟨false, true⟩ 0 true false 0
      [TxOp.commitOp 0, TxOp.rollbackOp 0]).1 rfl).2.2,
   (transaction_at_most_one_terminating ⟨false, true⟩ 0 true false 0
      [TxOp.commitOp 0, TxOp.rollbackOp 0]).2.2.2⟩

/-- C2: `execute_next` skips leading whitespace and returns false on an
empty remainder without executing anything; a prepare or step failure
returns that error without advancing the (trimmed) text; on a successful
call over semicolon-separated text the state advances past exactly the
first statement and the call returns true iff non-empty text remains;
`execute_all` repeats `execute_next` until it returns false (overall
`None`) or propagates its error. -/
theorem batch_execute_next_all_spec (st : List Char) (c : NativeCall)
    (stepRc finishRc : Nat) (b : Batch) (cs : List NativeCall) :
    (ltrim st = [] → executeNextText st c = ([], Except.ok false)) ∧
    (ltrim st ≠ [] → c.prepareRc ≠ SQLITE_OK →
      executeNextText st c = (ltrim st, Except.error c.prepareRc)) ∧
    (ltrim st ≠ [] → c.prepareRc = SQLITE_OK →
      ¬(c.stepRc = SQLITE_DONE ∨ c.stepRc = SQLITE_ROW) →
      executeNextText st c = (ltrim st, Except.error c.stepRc)) ∧
    (ltrim st ≠ [] → (stepRc = SQLITE_DONE ∨ stepRc = SQLITE_ROW) → finishRc = SQLITE_OK →
      executeNextText st (semiCall st stepRc finishRc) =
        ((ltrim st).drop (firstStmtLen (ltrim st)),
          Except.ok (!((ltrim st).drop (firstStmtLen (ltrim st))).isEmpty))) ∧
    ((∀ b2 e, b.execute_next c = (b2, Except.error e) →
        b.execute_all (c :: cs) = some (b2, some e)) ∧
     (∀ b2, b.execute_next c = (b2, Except.ok false) →
        b.execute_all (c :: cs) = some (b2, none)) ∧
     (∀ b2, b.execute_next c = (b2, Except.ok true) →
        b.execute_all (c :: cs) = b2.execute_all cs)) := by
  have hall : Batch.execute_all b (c :: cs) =
      (match b.execute_next c with
        | (x, Except.error e2) => some (x, some e2)
        | (x, Except.ok false) => some (x, none)
        | (x, Except.ok true) => x.execute_all cs) := rfl
  refine ⟨fun h => ?_, fun h1 h2 => ?_, fun h1 h2 h3 => ?_, fun h1 h2 h3 => ?_,
    fun b2 e hbe => ?_, fun b2 hbe => ?_, fun b2 hbe => ?_⟩
  · simp [executeNextText, h]
  · simp [executeNextText, List.isEmpty_iff, h1, sqlite_call, h2]
  · have hstep : Statement.step c.stepRc = Except.error c.stepRc := by
      rcases not_or.mp h3 with ⟨hd, hr⟩
      simp [Statement.step, hd, hr]
    simp [executeNextText, List.isEmpty_iff, h1, sqlite_call, h2, hstep]
  · have hstep : ∃ v, Statement.step stepRc = Except.ok v := by
      rcases h2 with h | h
      · exact ⟨false, by rw [h]; simp [Statement.step]⟩
      · exact ⟨true, by rw [h]; simp [Statement.step, SQLITE_ROW, SQLITE_DONE]⟩
    obtain ⟨v, hv⟩ := hstep
    simp [executeNextText, semiCall, List.isEmpty_iff, h1, sqlite_call, h3, hv]
  · rw [hall, hbe]
  · rw [hall, hbe]
  · rw [hall, hbe]

/-- C2 witness: one successful call on " a;b" executes only the first
statement and leaves "b"; a one-call batch over "a" finishes with no
error. -/
theorem batch_execute_next_all_spec_eval :
    executeNextText (String.toList " a;b") (semiCall (String.toList " a;b") 101 0) =
      (String.toList "b", Except.ok true) ∧
    Batch.execute_all ⟨none, String.toList "a", String.toList "a"⟩ [⟨0, 1, 101, 0⟩] =
      some (⟨none, [], String.toList "a"⟩, none) := by
  constructor
  · rw [(batch_execute_next_all_spec (String.toList " a;b") ⟨0, 0, 0, 0⟩ 101 0
      ⟨none, [], []⟩ []).2.2.2.1 (by decide) (Or.inl rfl) rfl]
    rfl
  · exact (batch_execute_next_all_spec (String.toList " a;b") ⟨0, 1, 101, 0⟩ 101 0
      ⟨none, String.toList "a", String.toList "a"⟩ []).2.2.2.2.2.1
      ⟨none, [], String.toList "a"⟩ rfl

end Sqlite3pp
